import Mathlib

/-!
Verification development for the igbo-archives-scrapers repository
(src/scrapers/run_reentanglements.py, src/scrapers/run_maa_cambridge.py,
src/scrapers/run_pitt_rivers.py).

The Python code is shallowly embedded: network access, the DOM/browser
collaborator and the PIL image decoder are abstracted as oracle function
parameters; everything else (the caption classification regexes, the
pagination loops, filename generation, the raw-to-clean packaging step)
is translated directly from the source.
-/

/- ---------------------------------------------------------------------
   Tiny regex fragment.  The keyword patterns at
   run_reentanglements.py:138-141 are alternations of plain literals plus
   the decade patterns `19[5-9]\d` and `20\d{2}`, the any-char `.` inside
   "M. V. Portman", and the audio-extension check `\.(mp3|ogg)(\?|$)` at
   line 177.  A character pattern is a literal, the regex `.` (anything
   but a newline) or a digit range; a keyword is a list of character
   patterns; `patSearch` is Python's `re.search` (match at any position).
   --------------------------------------------------------------------- -/

inductive CPat where
  | lit (a : Char)
  | anyChar
  | digitIn (lo hi : Char)
deriving DecidableEq

def cpatMatch : CPat → Char → Bool
  | .lit a, c => c == a
  | .anyChar, c => c != '\n'
  | .digitIn lo hi, c => decide (lo ≤ c) && decide (c ≤ hi)

def patMatchAt : List CPat → List Char → Bool
  | [], _ => true
  | _ :: _, [] => false
  | p :: ps, c :: cs => cpatMatch p c && patMatchAt ps cs

def patSearch (p : List CPat) : List Char → Bool
  | [] => patMatchAt p []
  | c :: cs => patMatchAt p (c :: cs) || patSearch p cs

/-- A keyword of the case-insensitive alternations: lower-cased literal
characters, with `.` (only present in "M. V. Portman") read as the regex
any-char, matching `re.IGNORECASE` search against a lower-cased text. -/
def regexLitI (s : String) : List CPat :=
  (s.data.map Char.toLower).map (fun c => if c = '.' then CPat.anyChar else CPat.lit c)

/-- The decade pattern `19[5-9]\d` of MODERN_IMAGE_KEYWORDS. -/
def pat19x : List CPat :=
  [.lit '1', .lit '9', .digitIn '5' '9', .digitIn '0' '9']

/-- The year pattern `20\d{2}` of MODERN_IMAGE_KEYWORDS. -/
def pat20xx : List CPat :=
  [.lit '2', .lit '0', .digitIn '0' '9', .digitIn '0' '9']

/-- `re.search(alternation, text, re.IGNORECASE)` as a Bool. -/
def reSearchI (pats : List (List CPat)) (text : String) : Bool :=
  pats.any (fun p => patSearch p (text.data.map Char.toLower))

/-- Case-sensitive substring test, Python's `needle in hay` for strings. -/
def strContains (needle hay : String) : Bool :=
  patSearch (needle.data.map CPat.lit) hay.data

/- ---------------------------------------------------------------------
   The four keyword alternations, run_reentanglements.py:138-141,
   transcribed verbatim in source order.
   --------------------------------------------------------------------- -/

def MODERN_IMAGE_KEYWORDS : List (List CPat) :=
  (["studio", "workshop", "exhibition", "installation", "artist",
    "researcher", "rehearsal", "filming", "screenshot", "article",
    "opening event", "scenes from", "Ozioma Onuzulike", "RitaDoris",
    "Kelani Abass", "Chiadikōbi Nwaubani", "Paul Basu", "George Agbo",
    "Chinyere Odinukwe", "Chikaogwu Kanu", "Ugonna Umeike"].map regexLitI)
  ++ [pat19x, pat20xx] ++
  (["Stills from", "interview", "Chike Aniakor", "Usifu Jalloh",
    "Shakalearn Mansaray", "conservation", "Asogwa", "Photomontage",
    "project", "treatment of", "stages in", "fieldwork", "M. V. Portman",
    "Edison phonograph", "selection of instruments",
    "recent colour photograph", "team members", "in the lab",
    "Art Assassins", "Onyeka Igwe", "Dr Janet Topp Fargion",
    "Felix Ekhator", "Raphael Anaemena", "Hassan Jalloh",
    "Presentations from", "Katrina Dring", "Works-in-progress"].map regexLitI)

def DOCUMENT_KEYWORDS : List (List CPat) :=
  ["Notes and Queries", "Statistical analysis", "Page proofs",
   "Letter from", "Annual Report", "herbarium specimens", "catalogue",
   "Kew Bulletin", "pages from", "excerpt from", "edition of", "album",
   "labels", "label", "Appendix C", "document", "manuscript",
   "transcription", "sketch map"].map regexLitI

def MODERN_AUDIO_KEYWORDS : List (List CPat) :=
  ["discussing", "interview", "podcast", "listen to", "Paul Basu",
   "Usifu Jalloh", "Chijioke Onuora", "Krydz Ikwuemesi", "RitaDoris",
   "Chinyere Odinukwe", "Ngozi Omeje", "Nicholas Thomas", "BBC Radio",
   "Ikenna Onwuegbuna", "contemporary reworking", "2019"].map regexLitI

def HISTORICAL_AUDIO_KEYWORDS : List (List CPat) :=
  ["NWT", "BL C51", "Northcote Thomas", "cylinder", "recording"].map regexLitI

def matchesModernImage (caption : String) : Bool :=
  reSearchI MODERN_IMAGE_KEYWORDS caption

def matchesDocument (caption : String) : Bool :=
  reSearchI DOCUMENT_KEYWORDS caption

def matchesModernAudio (caption : String) : Bool :=
  reSearchI MODERN_AUDIO_KEYWORDS caption

def matchesHistoricalAudio (caption : String) : Bool :=
  reSearchI HISTORICAL_AUDIO_KEYWORDS caption

/- ---------------------------------------------------------------------
   Classifier (spec §4.3), the caption routing of process_post_json.
   --------------------------------------------------------------------- -/

inductive Bucket where
  | image
  | audio
  | document
  | rejected
deriving DecidableEq

/-- Image-candidate routing, run_reentanglements.py:156-172: a caption
matching MODERN_IMAGE_KEYWORDS is skipped (`continue`) before the
document check is ever reached; a document match routes to the document
bucket; everything else is skipped (`pass`). -/
def classifyImageCaption (caption : String) : Bucket :=
  if matchesModernImage caption then .rejected
  else if matchesDocument caption then .document
  else .rejected

/-- Audio-candidate routing, run_reentanglements.py:186-199:
`(is_historical or 'Untitled Audio' in caption) and not is_modern`.
Note that `'Untitled Audio' in caption` is a case-sensitive substring
test, not an equality test. -/
def classifyAudioCaption (caption : String) : Bucket :=
  if (matchesHistoricalAudio caption || strContains "Untitled Audio" caption)
      && !(matchesModernAudio caption) then .audio
  else .rejected

/-- The playable-source check of the audio loop,
run_reentanglements.py:177: `re.search(r'\.(mp3|ogg)(\?|$)', audio_url)`
(case-sensitive, no IGNORECASE flag). -/
def endOrQuery : List Char → Bool
  | [] => true
  | '?' :: _ => true
  | _ => false

def extMatchHere : List Char → Bool
  | '.' :: 'm' :: 'p' :: '3' :: rest => endOrQuery rest
  | '.' :: 'o' :: 'g' :: 'g' :: rest => endOrQuery rest
  | _ => false

def extSearch : List Char → Bool
  | [] => false
  | c :: cs => extMatchHere (c :: cs) || extSearch cs

def hasAudioExt (url : String) : Bool := extSearch url.data

/- ---------------------------------------------------------------------
   Constants of run_reentanglements.py (lines 16-38).
   --------------------------------------------------------------------- -/

def SITE_BASE_URL : String := "https://re-entanglements.net"
def SOURCE_NAME : String := "Re-entanglements"
def SOURCE_ID : String := "re-entanglements"
def PER_PAGE : Nat := 20

/- ---------------------------------------------------------------------
   Filename generation (run_reentanglements.py:92-107).
   --------------------------------------------------------------------- -/

/-- Decimal digit characters of a positive number, most significant
first (fuel-driven so the kernel can evaluate it). -/
def natCharsAux : Nat → Nat → List Char
  | 0, _ => []
  | fuel + 1, n =>
    if n = 0 then [] else natCharsAux fuel (n / 10) ++ [Nat.digitChar (n % 10)]

/-- Decimal rendering of a natural number as characters, modelling
Python's `str(int)` / the f-string interpolation of numbers. -/
def natChars (n : Nat) : List Char :=
  if n = 0 then ['0'] else natCharsAux n n

def natStrOf (n : Nat) : String := String.mk (natChars n)

/-- `re.sub(r'--+', '-', ...)`: collapse runs of two or more dashes.
The flag records whether the previous kept character was a dash. -/
def collapseDashesAux : Bool → List Char → List Char
  | _, [] => []
  | prevDash, c :: rest =>
    if c = '-' then
      if prevDash then collapseDashesAux true rest
      else '-' :: collapseDashesAux true rest
    else c :: collapseDashesAux false rest

def collapseDashes (l : List Char) : List Char := collapseDashesAux false l

/-- sanitize_filename, run_reentanglements.py:92-96: lower-case,
spaces to dashes, strip characters outside `[\w\s.-]` (ASCII reading of
`\w`/`\s`), collapse dash runs, truncate to 100 characters. -/
def sanitize_filename (name : String) : String :=
  let lowered := (name.data.map Char.toLower).map (fun c => if c = ' ' then '-' else c)
  let kept := lowered.filter
    (fun c => c.isAlphanum || c = '_' || c.isWhitespace || c = '.' || c = '-')
  String.mk ((collapseDashes kept).take 100)

/-- `os.path.basename(file_url.split("?")[0])`. -/
def urlBasename (url : String) : String :=
  String.mk (((url.data.takeWhile (fun c => c ≠ '?')).reverse.takeWhile
    (fun c => c ≠ '/')).reverse)

/-- The generated asset filename of download_file,
run_reentanglements.py:106:
`f"{SOURCE_ID}_{post_id}_{index}_{int(time.time()*1000)}_{safe_filename}"`. -/
def mkAssetFilename (postId idx ts : Nat) (origName : String) : String :=
  SOURCE_ID ++ "_" ++ natStrOf postId ++ "_" ++ natStrOf idx ++ "_" ++
    natStrOf ts ++ "_" ++ sanitize_filename origName

/-- The asset filename of scrape_maa, run_maa_cambridge.py:153-154:
`safe_id = idno.replace(".", "_").replace(" ", "_").replace("/", "-").strip()`
then `fname = f"{safe_id}_{idx}.jpg"`. -/
def trimChars (l : List Char) : List Char :=
  ((l.dropWhile Char.isWhitespace).reverse.dropWhile Char.isWhitespace).reverse

def maaSafeId (idno : String) : String :=
  String.mk (trimChars (idno.data.map
    (fun c => if c = '.' then '_' else if c = ' ' then '_'
              else if c = '/' then '-' else c)))

def maa_filename (idno : String) (idx : Nat) : String :=
  maaSafeId idno ++ "_" ++ natStrOf idx ++ ".jpg"

/- ---------------------------------------------------------------------
   Downloaded payloads.  The HTTP collaborator is an oracle
   `fetch : String → Option Blob` (None = request/timeout/non-2xx
   failure, the `except` path of download_file); the PIL collaborator is
   an oracle `decode : Blob → Option (Nat × Nat)` returning pixel
   dimensions or None for undecodable bytes.
   --------------------------------------------------------------------- -/

structure Blob where
  bytes : List Nat
deriving DecidableEq

structure FileStats where
  file_size_bytes : Nat
  width : Option Nat
  height : Option Nat
deriving DecidableEq

/-- download_file, run_reentanglements.py:98-128.  Returns the value
Python returns (None, or the new filename and stats) together with the
list of files persisted in the target directory: a doc-directory
download that fails image validation still leaves the written file on
disk (lines 109-121 write before validating and do not delete). -/
def download_file (fetch : String → Option Blob) (decode : Blob → Option (Nat × Nat))
    (toDocDir : Bool) (fileUrl : String) (postId idx ts : Nat) :
    Option (String × FileStats) × List (String × Blob) :=
  match fetch fileUrl with
  | none => (none, [])
  | some blob =>
    let newFilename := mkAssetFilename postId idx ts (urlBasename fileUrl)
    let stats : FileStats :=
      { file_size_bytes := blob.bytes.length, width := none, height := none }
    if toDocDir then
      match decode blob with
      | none => (none, [(newFilename, blob)])
      | some wh =>
        (some (newFilename, { stats with width := some wh.1, height := some wh.2 }),
         [(newFilename, blob)])
    else (some (newFilename, stats), [(newFilename, blob)])

/- ---------------------------------------------------------------------
   ItemRecord data model (the post_data dict built at
   run_reentanglements.py:211-228) and the parsed-DOM view of a post.
   --------------------------------------------------------------------- -/

structure DocAsset where
  file_name : String
  original_url : String
  raw_caption : String
  width : Option Nat
  height : Option Nat
  file_size_bytes : Nat
deriving DecidableEq

structure AudioAsset where
  file_name : String
  original_url : String
  raw_caption : String
  file_size_bytes : Nat
deriving DecidableEq

structure SourceMeta where
  source_id : String
  wp_post_id : Nat
  date_published : Option String
deriving DecidableEq

structure Record where
  id : String
  source_name : String
  source_type : String
  original_url : String
  title : String
  raw_content : String
  audio : List AudioAsset
  documents : List DocAsset
  tags_scraped : List String
  license_info : String
  timestamp_scraped : String
  source_specific_metadata : SourceMeta
deriving DecidableEq

/-- One `figure:has(figcaption)` group of a post's rendered HTML (the
DOM collaborator's view): whether it holds an `img`, the figcaption
text, and the img `src` attribute (None when absent, Some "" when
empty, both falsy in Python). -/
structure Figure where
  hasImg : Bool
  caption : String
  imgSrc : Option String
deriving DecidableEq

/-- One `audio[src]` element: the src attribute and the figcaption text
of the enclosing figure, when there is one. -/
structure AudioTag where
  src : Option String
  caption : Option String
deriving DecidableEq

/-- The parsed view of one WordPress post JSON, after the BeautifulSoup
collaborator has extracted title text, body text, figures, audio tags
and embedded post_tag names. -/
structure Post where
  id : Nat
  link : String
  title : String
  rawText : String
  figures : List Figure
  audios : List AudioTag
  tags : List String
  date : Option String
deriving DecidableEq

/-- `urljoin(SITE_BASE_URL, url)`, abstracted: an absolute URL is kept,
anything else is resolved against the site base. -/
def urljoinModel (base rel : String) : String :=
  if "http://".isPrefixOf rel || "https://".isPrefixOf rel then rel
  else base ++ rel

/-- One iteration of the figure loop, run_reentanglements.py:145-172.
`ts` supplies the millisecond timestamp observed for candidate index
`i`.  Returns the document assets appended and the files written to the
raw documents directory. -/
def docStep (fetch : String → Option Blob) (decode : Blob → Option (Nat × Nat))
    (postId : Nat) (ts : Nat → Nat) (p : Nat × Figure) :
    List DocAsset × List (String × Blob) :=
  let (i, fig) := p
  if !fig.hasImg then ([], [])
  else match fig.imgSrc with
  | none => ([], [])
  | some src =>
    if src = "" then ([], [])
    else
      let captionText := fig.caption
      let absImgUrl := urljoinModel SITE_BASE_URL src
      if matchesModernImage captionText then ([], [])
      else if matchesDocument captionText then
        match download_file fetch decode true absImgUrl postId i (ts i) with
        | (none, files) => ([], files)
        | (some (newFilename, stats), files) =>
          ([{ file_name := newFilename, original_url := absImgUrl,
              raw_caption := captionText, width := stats.width,
              height := stats.height,
              file_size_bytes := stats.file_size_bytes }], files)
      else ([], [])

/-- One iteration of the audio loop, run_reentanglements.py:175-199. -/
def audioStep (fetch : String → Option Blob) (decode : Blob → Option (Nat × Nat))
    (postId : Nat) (ts : Nat → Nat) (p : Nat × AudioTag) :
    List AudioAsset × List (String × Blob) :=
  let (i, tag) := p
  match tag.src with
  | none => ([], [])
  | some src =>
    if src = "" || !hasAudioExt src then ([], [])
    else
      let caption := (tag.caption).getD "Untitled Audio"
      let absAudioUrl := urljoinModel SITE_BASE_URL src
      if (matchesHistoricalAudio caption || strContains "Untitled Audio" caption)
          && !(matchesModernAudio caption) then
        match download_file fetch decode false absAudioUrl postId i (ts i) with
        | (none, files) => ([], files)
        | (some (newFilename, stats), files) =>
          ([{ file_name := newFilename, original_url := absAudioUrl,
              raw_caption := caption,
              file_size_bytes := stats.file_size_bytes }], files)
      else ([], [])

/-- process_post_json, run_reentanglements.py:130-229, over the oracle
collaborators.  `now` is the ISO timestamp taken at line 222. -/
def process_post_json (fetch : String → Option Blob)
    (decode : Blob → Option (Nat × Nat)) (ts : Nat → Nat) (now : String)
    (post : Post) : Record :=
  let scraped_documents :=
    (post.figures.enum.map (docStep fetch decode post.id ts)).map Prod.fst
  let scraped_audio :=
    (post.audios.enum.map (audioStep fetch decode post.id ts)).map Prod.fst
  { id := SOURCE_ID ++ "_" ++ natStrOf post.id
    source_name := SOURCE_NAME
    source_type := "secondary"
    original_url := post.link
    title := post.title
    raw_content := post.rawText
    audio := scraped_audio.flatten
    documents := scraped_documents.flatten
    tags_scraped := post.tags.dedup
    license_info := "Copyright © 2025 [Re:]Entanglements"
    timestamp_scraped := now
    source_specific_metadata :=
      { source_id := SOURCE_ID, wp_post_id := post.id,
        date_published := post.date } }

/- ---------------------------------------------------------------------
   run_scraper, run_reentanglements.py:231-251: the per-post loop.  The
   per-item `try`/`except` is modelled by `process` returning
   `Except String Record`; a record line is written only when audio or
   documents is non-empty (line 247).
   --------------------------------------------------------------------- -/

def runScraperRecords {γ : Type} (process : γ → Except String Record)
    (posts : List γ) : List Record :=
  (posts.map (fun p =>
    match process p with
    | .error _ => []
    | .ok data =>
      if !data.audio.isEmpty || !data.documents.isEmpty then [data] else [])).flatten

/- ---------------------------------------------------------------------
   run_cleaner_and_splitter, run_reentanglements.py:253-323.
   --------------------------------------------------------------------- -/

/-- The on-disk raw state handed from run_scraper to the packager: the
files of data_re-entanglements_raw/documents and .../audio, and the
lines of data.jsonl. -/
structure RawState where
  docFiles : List (String × Blob)
  audioFiles : List (String × Blob)
  records : List Record
deriving DecidableEq

/-- An audio-bundle metadata line: the record with the `documents` key
deleted (run_reentanglements.py:305). -/
structure CleanAudioRecord where
  id : String
  source_name : String
  source_type : String
  original_url : String
  title : String
  raw_content : String
  audio : List AudioAsset
  tags_scraped : List String
  license_info : String
  timestamp_scraped : String
  source_specific_metadata : SourceMeta
deriving DecidableEq

/-- A documents-bundle metadata line: the record with the `audio` key
deleted and its documents filtered to the validated set
(run_reentanglements.py:311-313). -/
structure CleanDocRecord where
  id : String
  source_name : String
  source_type : String
  original_url : String
  title : String
  raw_content : String
  documents : List DocAsset
  tags_scraped : List String
  license_info : String
  timestamp_scraped : String
  source_specific_metadata : SourceMeta
deriving DecidableEq

def audioCopy (r : Record) : CleanAudioRecord :=
  { id := r.id, source_name := r.source_name, source_type := r.source_type,
    original_url := r.original_url, title := r.title,
    raw_content := r.raw_content, audio := r.audio,
    tags_scraped := r.tags_scraped, license_info := r.license_info,
    timestamp_scraped := r.timestamp_scraped,
    source_specific_metadata := r.source_specific_metadata }

def docCopy (good : List String) (r : Record) : CleanDocRecord :=
  { id := r.id, source_name := r.source_name, source_type := r.source_type,
    original_url := r.original_url, title := r.title,
    raw_content := r.raw_content,
    documents := r.documents.filter (fun d => decide (d.file_name ∈ good)),
    tags_scraped := r.tags_scraped, license_info := r.license_info,
    timestamp_scraped := r.timestamp_scraped,
    source_specific_metadata := r.source_specific_metadata }

/-- Lines a raw record contributes to the audio bundle's data.jsonl
(run_reentanglements.py:302-307): one line when its audio list is
non-empty, none otherwise. -/
def toAudioLine (r : Record) : List CleanAudioRecord :=
  if !r.audio.isEmpty then
    (if !(audioCopy r).audio.isEmpty then [audioCopy r] else [])
  else []

/-- Lines a raw record contributes to the documents bundle's data.jsonl
(run_reentanglements.py:309-315): its documents are filtered to the
validated `good_documents` set and a line is written only if the
filtered list is non-empty. -/
def toDocLine (good : List String) (r : Record) : List CleanDocRecord :=
  if !r.documents.isEmpty then
    (if !(docCopy good r).documents.isEmpty then [docCopy good r] else [])
  else []

/-- The names of the raw document files that pass the packager's
re-validation (`Image.open` + `img.verify()`,
run_reentanglements.py:266-276). -/
def goodDocNames (decode : Blob → Option (Nat × Nat))
    (docFiles : List (String × Blob)) : List String :=
  (docFiles.filter (fun fc => (decode fc.2).isSome)).map Prod.fst

/-- The clean (bundle) state produced by one packager run, plus the
counts the function returns at line 323. -/
structure CleanState where
  docAssets : List (String × Blob)
  audioAssets : List (String × Blob)
  audioJsonl : List CleanAudioRecord
  docJsonl : List CleanDocRecord
  audio_lines : Nat
  audio_count : Nat
  document_lines : Nat
  document_count : Nat
deriving DecidableEq

/-- run_cleaner_and_splitter, run_reentanglements.py:253-323.  The
previous clean state is removed wholesale (`shutil.rmtree`, lines
256-259) before the bundles are rebuilt, so `prevClean` does not flow
into the output.  Document files are re-validated and only good ones
copied; audio files are copied unconditionally; metadata lines are
split per bucket.  `document_count` is `len(good_documents)`, a set. -/
def run_cleaner_and_splitter (decode : Blob → Option (Nat × Nat))
    (prevClean : CleanState) (raw : RawState) : CleanState :=
  let good := goodDocNames decode raw.docFiles
  { docAssets := raw.docFiles.filter (fun fc => (decode fc.2).isSome)
    audioAssets := raw.audioFiles
    audioJsonl := (raw.records.map toAudioLine).flatten
    docJsonl := (raw.records.map (toDocLine good)).flatten
    audio_lines := ((raw.records.map toAudioLine).flatten).length
    audio_count := raw.audioFiles.length
    document_lines := ((raw.records.map (toDocLine good)).flatten).length
    document_count := good.dedup.length }

/- ---------------------------------------------------------------------
   Link harvesting.

   get_all_posts, run_reentanglements.py:62-90: `fetch page` models
   `get_json_response(api_url, params={'per_page': PER_PAGE, 'page':
   page, '_embed': 'wp:term'})` — `none` is a failed request or
   undecodable JSON (get_json_response returns None for both, lines
   49-60, with no retry).  The loop breaks when the response is None or
   the empty list (`if not posts or len(posts) == 0`), else extends and
   moves to the next page.  The model returns the accumulated posts
   together with the number of pages fetched; `fuel` bounds the loop
   (the theorems always supply enough).
   --------------------------------------------------------------------- -/

def get_all_posts_aux {α : Type} (fetch : Nat → Option (List α)) :
    Nat → Nat → List α → List α × Nat
  | 0, page, acc => (acc, page)
  | fuel + 1, page, acc =>
    match fetch page with
    | none => (acc, page)
    | some [] => (acc, page)
    | some (p :: ps) => get_all_posts_aux fetch fuel (page + 1) (acc ++ (p :: ps))

def get_all_posts {α : Type} (fetch : Nat → Option (List α)) (fuel : Nat) :
    List α × Nat :=
  get_all_posts_aux fetch fuel 1 []

/-- The concatenation of pages `a, a+1, ..., a+d-1` served by `fetch`
(failed or missing pages contribute nothing). -/
def pagesJoin {α : Type} (fetch : Nat → Option (List α)) (a d : Nat) : List α :=
  ((List.range d).map (fun j => (fetch (a + j)).getD [])).flatten

/-- A fake listing source serving the fixed list `items` in successive
pages of `pageSize` items: page `p` (1-based) holds items
`(p-1)*pageSize ..< p*pageSize`, and every request succeeds. -/
def chunkFetch {α : Type} (items : List α) (pageSize p : Nat) : Option (List α) :=
  some ((items.drop ((p - 1) * pageSize)).take pageSize)

/- ---------------------------------------------------------------------
   scrape_maa link harvesting, run_maa_cambridge.py:56-98.

   `linksOn page` models the filtered item links visible on result page
   `page` (the page.evaluate + filtering of lines 65-74, a DOM
   collaborator query); `navOk page` models `page.goto` of that page
   returning an ok response and showing the "Search returned" marker
   (lines 87-94).  Per iteration the current page's links are
   deduplicated (`set(new_links)`) and filtered against the accumulated
   set; the loop breaks when a page past the first yields zero new
   links, or navigation to the next page fails.  The model returns the
   accumulated unique links and the number of page loads performed
   (the initial search page counts as the first load).  Python's
   `object_links` is a set with no iteration order; the model fixes
   first-seen insertion order, which is immaterial to the counted loads
   and to the set of links returned.
   --------------------------------------------------------------------- -/

def scrape_maa_links_aux {α : Type} [DecidableEq α] (linksOn : Nat → List α)
    (navOk : Nat → Bool) : Nat → Nat → List α → Nat → List α × Nat
  | 0, _, links, loads => (links, loads)
  | fuel + 1, pageNum, links, loads =>
    let uniqueNew := ((linksOn pageNum).dedup).filter (fun l => decide (l ∉ links))
    let links2 := links ++ uniqueNew
    if uniqueNew.isEmpty && decide (1 < pageNum) then (links2, loads)
    else if !navOk (pageNum + 1) then (links2, loads + 1)
    else scrape_maa_links_aux linksOn navOk fuel (pageNum + 1) links2 (loads + 1)

def scrape_maa_links {α : Type} [DecidableEq α] (linksOn : Nat → List α)
    (navOk : Nat → Bool) (fuel : Nat) : List α × Nat :=
  scrape_maa_links_aux linksOn navOk fuel 1 [] 1

/- ---------------------------------------------------------------------
   Concrete sample data used by witnesses and counterexamples.
   --------------------------------------------------------------------- -/

def sampleMeta : SourceMeta :=
  { source_id := "re-entanglements", wp_post_id := 5, date_published := none }

def sampleAudioAsset : AudioAsset :=
  { file_name := "a.mp3", original_url := "https://re-entanglements.net/a.mp3",
    raw_caption := "NWT recording", file_size_bytes := 10 }

def sampleDocAsset : DocAsset :=
  { file_name := "d.jpg", original_url := "https://re-entanglements.net/d.jpg",
    raw_caption := "Letter from Onitsha", width := some 4, height := some 3,
    file_size_bytes := 9 }

/-- A record with one audio asset and no documents. -/
def sampleAudioRecord : Record :=
  { id := "re-entanglements_5", source_name := "Re-entanglements",
    source_type := "secondary", original_url := "https://re-entanglements.net/p",
    title := "t", raw_content := "c", audio := [sampleAudioAsset],
    documents := [], tags_scraped := [], license_info := "l",
    timestamp_scraped := "2025", source_specific_metadata := sampleMeta }

/-- A record with empty audio and documents buckets. -/
def sampleEmptyRecord : Record :=
  { id := "re-entanglements_6", source_name := "Re-entanglements",
    source_type := "secondary", original_url := "https://re-entanglements.net/q",
    title := "t2", raw_content := "c2", audio := [], documents := [],
    tags_scraped := [], license_info := "l", timestamp_scraped := "2025",
    source_specific_metadata := sampleMeta }

/-- A concrete per-post processing outcome used by the C3 witness: post
1 yields the audio-only sample record, every other post raises. -/
def processC3 : Nat → Except String Record :=
  fun n => if n = 1 then Except.ok sampleAudioRecord else Except.error "boom"

def emptyCleanState : CleanState :=
  { docAssets := [], audioAssets := [], audioJsonl := [], docJsonl := [],
    audio_lines := 0, audio_count := 0, document_lines := 0,
    document_count := 0 }

/-- A raw state with one undecodable document file, one zero-byte audio
file, and one audio record. -/
def sampleRawState : RawState :=
  { docFiles := [("bad.jpg", ⟨[1, 2]⟩)], audioFiles := [("z.mp3", ⟨[]⟩)],
    records := [sampleAudioRecord] }

/-- The page-1-fails-at-page-2 fetch used to refute C4: page 1 succeeds,
page 2 fails (request error), page 3 would have content. -/
def fetchC4 : Nat → Option (List Nat) :=
  fun p => if p = 1 then some [7] else if p = 2 then none else some [8]

/-- A fetch whose page 1 holds [5] and whose page 2 is the empty
terminal page (used by the C4 witness). -/
def fetchC4w : Nat → Option (List Nat) :=
  fun p => if p = 1 then some [5] else some []

/- ---------------------------------------------------------------------
   Shared helper lemmas.
   --------------------------------------------------------------------- -/

theorem mem_runScraperRecords {γ : Type} (process : γ → Except String Record)
    (posts : List γ) (r : Record) :
    r ∈ runScraperRecords process posts ↔
      ∃ p ∈ posts, process p = Except.ok r ∧ (r.audio ≠ [] ∨ r.documents ≠ []) := by
  simp only [runScraperRecords, List.mem_flatten, List.mem_map]
  constructor
  · rintro ⟨l, ⟨p, hp, rfl⟩, hr⟩
    refine ⟨p, hp, ?_⟩
    cases hproc : process p with
    | error e => simp [hproc] at hr
    | ok d =>
      simp only [hproc] at hr
      by_cases hcond : (!d.audio.isEmpty || !d.documents.isEmpty) = true
      · simp only [hcond, if_true, List.mem_singleton] at hr
        subst hr
        rcases Bool.or_eq_true _ _ |>.mp hcond with h | h
        · exact ⟨rfl, Or.inl (by simpa using h)⟩
        · exact ⟨rfl, Or.inr (by simpa using h)⟩
      · simp [hcond] at hr
  · rintro ⟨p, hp, hproc, hne⟩
    refine ⟨_, ⟨p, hp, rfl⟩, ?_⟩
    have hcond : (!r.audio.isEmpty || !r.documents.isEmpty) = true := by
      rcases hne with h | h <;> simp [h]
    simp [hproc, hcond]

/- ---------------------------------------------------------------------
   Claim theorems.
   --------------------------------------------------------------------- -/

/-- C1, counterexample: the caption "Letter from the artist" matches both
a modern/secondary-context pattern ("artist") and a document pattern
("Letter from"), yet the classifier rejects it instead of routing it to
the document bucket. -/
theorem c1_counterexample :
    matchesModernImage "Letter from the artist" = true
    ∧ matchesDocument "Letter from the artist" = true
    ∧ classifyImageCaption "Letter from the artist" = Bucket.rejected
    ∧ Bucket.rejected ≠ Bucket.document := by
  refine ⟨by decide, by decide, by decide, by decide⟩

/-- C1 (amended): an image candidate whose caption matches a
modern/secondary-context pattern is rejected even when a document
pattern also matches — the modern-context rejection is checked first and
beats the document routing. -/
theorem c1_theorem (caption : String)
    (hm : matchesModernImage caption = true)
    (hd : matchesDocument caption = true) :
    classifyImageCaption caption = Bucket.rejected := by
  simp [classifyImageCaption, hm]

/-- C1, witness for c1_theorem at the caption "Letter from the artist". -/
theorem c1_witness :
    classifyImageCaption "Letter from the artist" = Bucket.rejected :=
  c1_theorem "Letter from the artist" (by decide) (by decide)

/-- C2, counterexample: the caption "An Untitled Audio clip" contains
the placeholder "Untitled Audio" as a substring but is not exactly the
placeholder, matches no historical pattern and no modern pattern; the
code routes it to the audio bucket while the claim (requiring exact
equality with the placeholder) says it is rejected. -/
theorem c2_counterexample :
    classifyAudioCaption "An Untitled Audio clip" = Bucket.audio
    ∧ matchesHistoricalAudio "An Untitled Audio clip" = false
    ∧ matchesModernAudio "An Untitled Audio clip" = false
    ∧ "An Untitled Audio clip" ≠ "Untitled Audio" := by
  refine ⟨by decide, by decide, by decide, by decide⟩

/-- C2 (amended): an audio candidate is routed to the audio bucket iff
(a historical-provenance pattern matches OR the caption CONTAINS the
placeholder "Untitled Audio" as a substring) AND no modern-context audio
pattern matches; in every other case it is rejected — in particular a
caption matching both a historical and a modern pattern is rejected
(reject wins), since the right-hand side is false whenever the modern
match holds. -/
theorem c2_theorem (caption : String) :
    (classifyAudioCaption caption = Bucket.audio ↔
      ((matchesHistoricalAudio caption = true
        ∨ strContains "Untitled Audio" caption = true)
       ∧ matchesModernAudio caption = false))
    ∧ (classifyAudioCaption caption = Bucket.audio
       ∨ classifyAudioCaption caption = Bucket.rejected) := by
  unfold classifyAudioCaption
  constructor
  · split_ifs with h
    · simp only [Bool.and_eq_true, Bool.or_eq_true, Bool.not_eq_true'] at h
      simp [h]
    · simp only [Bool.and_eq_true, Bool.or_eq_true, Bool.not_eq_true'] at h
      constructor
      · intro hcontra; exact absurd hcontra (by simp)
      · intro hrhs; exact absurd (by tauto) h
  · split_ifs <;> simp

/-- C7: the packager ignores whatever clean state a previous run left
behind (the bundle directories are removed and rebuilt from scratch), so
two runs over the same unchanged raw directory produce identical
bundles, line counts and asset counts, and running it on its own output
changes nothing. -/
theorem c7_theorem (decode : Blob → Option (Nat × Nat)) (raw : RawState)
    (prev1 prev2 : CleanState) :
    run_cleaner_and_splitter decode prev1 raw
      = run_cleaner_and_splitter decode prev2 raw
    ∧ run_cleaner_and_splitter decode
        (run_cleaner_and_splitter decode prev1 raw) raw
      = run_cleaner_and_splitter decode prev1 raw
    ∧ (run_cleaner_and_splitter decode prev1 raw).audio_lines
      = (run_cleaner_and_splitter decode prev2 raw).audio_lines
    ∧ (run_cleaner_and_splitter decode prev1 raw).document_lines
      = (run_cleaner_and_splitter decode prev2 raw).document_lines
    ∧ (run_cleaner_and_splitter decode prev1 raw).audio_count
      = (run_cleaner_and_splitter decode prev2 raw).audio_count
    ∧ (run_cleaner_and_splitter decode prev1 raw).document_count
      = (run_cleaner_and_splitter decode prev2 raw).document_count :=
  ⟨rfl, rfl, rfl, rfl, rfl, rfl⟩

/-- C8: an item whose processing raises is skipped and contributes
nothing, while the records of the items before and after it are exactly
those of processing the surrounding lists — the run never aborts. -/
theorem c8_theorem {γ : Type} (process : γ → Except String Record)
    (xs ys : List γ) (bad : γ) (e : String)
    (h : process bad = Except.error e) :
    runScraperRecords process (xs ++ bad :: ys) =
      runScraperRecords process xs ++ runScraperRecords process ys := by
  simp [runScraperRecords, h]

/-- C8, witness: with item 0 throwing among items [1, 0, 2], the output
equals the outputs of [1] and [2] concatenated. -/
theorem c8_witness :
    runScraperRecords
        (fun n : Nat => if n = 0 then Except.error "boom"
                        else Except.ok sampleAudioRecord) [1, 0, 2]
      = runScraperRecords
          (fun n : Nat => if n = 0 then Except.error "boom"
                          else Except.ok sampleAudioRecord) [1]
        ++ runScraperRecords
            (fun n : Nat => if n = 0 then Except.error "boom"
                            else Except.ok sampleAudioRecord) [2] :=
  c8_theorem _ [1] [2] 0 "boom" rfl

/-- C10: the packager copies the raw audio directory verbatim into the
clean audio assets folder (no validation, zero-byte files included) and
writes every record with non-empty audio to the audio bundle with its
audio asset list unchanged. -/
theorem c10_theorem (decode : Blob → Option (Nat × Nat))
    (prev : CleanState) (raw : RawState) (r : Record)
    (hr : r ∈ raw.records) (ha : r.audio ≠ []) :
    (run_cleaner_and_splitter decode prev raw).audioAssets = raw.audioFiles
    ∧ audioCopy r ∈ (run_cleaner_and_splitter decode prev raw).audioJsonl
    ∧ (audioCopy r).audio = r.audio := by
  refine ⟨rfl, ?_, rfl⟩
  show audioCopy r ∈ (raw.records.map toAudioLine).flatten
  rw [List.mem_flatten]
  refine ⟨toAudioLine r, List.mem_map_of_mem _ hr, ?_⟩
  have hA : r.audio.isEmpty = false := by
    cases hAudio : r.audio with
    | nil => exact absurd hAudio ha
    | cons x xs => simp
  have hA2 : (audioCopy r).audio.isEmpty = false := hA
  simp [toAudioLine, hA, hA2]

/-- C10, witness: for the sample raw state (one zero-byte raw audio
file, one audio record) the bundle keeps the zero-byte file and the
record's audio list. -/
theorem c10_witness :
    (run_cleaner_and_splitter (fun _ => none) emptyCleanState
        sampleRawState).audioAssets = sampleRawState.audioFiles
    ∧ audioCopy sampleAudioRecord ∈
        (run_cleaner_and_splitter (fun _ => none) emptyCleanState
          sampleRawState).audioJsonl
    ∧ (audioCopy sampleAudioRecord).audio = sampleAudioRecord.audio :=
  c10_theorem (fun _ => none) emptyCleanState sampleRawState
    sampleAudioRecord (by decide) (by decide)

theorem snd_eq_of_nodup_keys {β γ : Type} {l : List (β × γ)}
    (h : (l.map Prod.fst).Nodup) {a : β} {b1 b2 : γ}
    (h1 : (a, b1) ∈ l) (h2 : (a, b2) ∈ l) : b1 = b2 := by
  induction l with
  | nil => cases h1
  | cons x t ih =>
    simp only [List.map_cons, List.nodup_cons] at h
    rcases List.mem_cons.mp h1 with e1 | m1
    · rcases List.mem_cons.mp h2 with e2 | m2
      · have h12 : (a, b1) = (a, b2) := e1.trans e2.symm
        exact (Prod.ext_iff.mp h12).2
      · subst e1
        exact absurd (by simpa using List.mem_map_of_mem Prod.fst m2)
          (by simpa using h.1)
    · rcases List.mem_cons.mp h2 with e2 | m2
      · subst e2
        exact absurd (by simpa using List.mem_map_of_mem Prod.fst m1)
          (by simpa using h.1)
      · exact ih h.2 m1 m2

/-- A raw document file whose bytes do not decode is never recorded as
validated by the packager. -/
theorem not_mem_goodDocNames (decode : Blob → Option (Nat × Nat))
    (docFiles : List (String × Blob)) (fname : String) (cbad : Blob)
    (hnd : (docFiles.map Prod.fst).Nodup)
    (hmem : (fname, cbad) ∈ docFiles) (hbad : decode cbad = none) :
    fname ∉ goodDocNames decode docFiles := by
  intro hg
  unfold goodDocNames at hg
  rcases List.mem_map.mp hg with ⟨⟨f, c⟩, hfc, hf⟩
  rcases List.mem_filter.mp hfc with ⟨hmem2, hdec⟩
  simp only at hf
  subst hf
  have hc : c = cbad := snd_eq_of_nodup_keys hnd hmem2 hmem
  rw [hc, hbad] at hdec
  simp at hdec

/-- C3: for EVERY record r, r is written to the raw metadata file iff
its processing succeeded and at least one of its audio/documents
buckets is non-empty (both directions, with no restriction on r); in
addition, a record whose audio bucket is empty contributes no line to
the audio bundle, and one whose documents are all filtered out by
validation contributes no line to the documents bundle. -/
theorem c3_theorem {γ : Type} (process : γ → Except String Record)
    (posts : List γ) (good : List String) (r : Record) :
    (r ∈ runScraperRecords process posts ↔
      ∃ p ∈ posts, process p = Except.ok r
        ∧ (r.audio ≠ [] ∨ r.documents ≠ []))
    ∧ (r.audio = [] → toAudioLine r = [])
    ∧ (r.documents.filter (fun d => decide (d.file_name ∈ good)) = [] →
        toDocLine good r = []) := by
  refine ⟨mem_runScraperRecords process posts r, ?_, ?_⟩
  · intro hA
    simp [toAudioLine, hA]
  · intro hD
    simp [toDocLine, docCopy, hD]

/-- C3, witness: via c3_theorem's biconditional, the audio-only sample
record produced for post 1 IS written to the raw metadata file; the
all-empty sample record contributes zero lines to both bundles. -/
theorem c3_witness :
    sampleAudioRecord ∈ runScraperRecords processC3 [1, 2]
    ∧ (sampleAudioRecord ∈ runScraperRecords processC3 [1, 2]
      ↔ ∃ p ∈ [1, 2], processC3 p = Except.ok sampleAudioRecord
          ∧ (sampleAudioRecord.audio ≠ [] ∨ sampleAudioRecord.documents ≠ []))
    ∧ toAudioLine sampleEmptyRecord = []
    ∧ toDocLine [] sampleEmptyRecord = [] :=
  ⟨(c3_theorem processC3 [1, 2] [] sampleAudioRecord).1.mpr
      ⟨1, by decide, rfl, Or.inl (by decide)⟩,
   (c3_theorem processC3 [1, 2] [] sampleAudioRecord).1,
   (c3_theorem processC3 [1, 2] [] sampleEmptyRecord).2.1 rfl,
   (c3_theorem processC3 [1, 2] [] sampleEmptyRecord).2.2 rfl⟩

/-- C6: an image/document candidate whose downloaded bytes do not decode
produces no Asset at download time, and a persisted raw document file
whose bytes do not decode is excluded by the packager's re-validation
both from the bundle's asset folder and from every record's asset list
in the bundle metadata. -/
theorem c6_theorem (fetch : String → Option Blob)
    (decode : Blob → Option (Nat × Nat)) (url : String) (pid idx ts : Nat)
    (cdl : Blob) (raw : RawState) (prev : CleanState) (fname : String)
    (cbad : Blob)
    (hfetch : fetch url = some cdl) (hdl : decode cdl = none)
    (hnd : (raw.docFiles.map Prod.fst).Nodup)
    (hmem : (fname, cbad) ∈ raw.docFiles) (hbad : decode cbad = none) :
    (download_file fetch decode true url pid idx ts).1 = none
    ∧ fname ∉
        ((run_cleaner_and_splitter decode prev raw).docAssets.map Prod.fst)
    ∧ ∀ r ∈ (run_cleaner_and_splitter decode prev raw).docJsonl,
        ∀ d ∈ r.documents, d.file_name ≠ fname := by
  have hng :=
    not_mem_goodDocNames decode raw.docFiles fname cbad hnd hmem hbad
  refine ⟨?_, ?_, ?_⟩
  · simp [download_file, hfetch, hdl]
  · exact hng
  · intro r hr d hd hcontra
    have hr2 : r ∈ (raw.records.map
        (toDocLine (goodDocNames decode raw.docFiles))).flatten := hr
    rcases List.mem_flatten.mp hr2 with ⟨l, hl, hrl⟩
    rcases List.mem_map.mp hl with ⟨r0, _, rfl⟩
    unfold toDocLine at hrl
    have hrdoc : r = docCopy (goodDocNames decode raw.docFiles) r0 := by
      split_ifs at hrl with h1 h2
      · exact List.mem_singleton.mp hrl
      · exact absurd hrl (List.not_mem_nil r)
      · exact absurd hrl (List.not_mem_nil r)
    subst hrdoc
    have hd2 : d ∈ r0.documents.filter
        (fun x => decide (x.file_name ∈ goodDocNames decode raw.docFiles)) := hd
    have hgood : d.file_name ∈ goodDocNames decode raw.docFiles :=
      of_decide_eq_true (List.mem_filter.mp hd2).2
    rw [hcontra] at hgood
    exact hng hgood

/-- C6, witness for c6_theorem: a fetch that serves undecodable bytes,
and the sample raw state whose only document file is undecodable. -/
theorem c6_witness :
    (download_file (fun _ => some ⟨[1, 2]⟩) (fun _ => none) true
        "https://re-entanglements.net/x.jpg" 1 0 99).1 = none
    ∧ "bad.jpg" ∉
        ((run_cleaner_and_splitter (fun _ => none) emptyCleanState
          sampleRawState).docAssets.map Prod.fst)
    ∧ ∀ r ∈ (run_cleaner_and_splitter (fun _ => none) emptyCleanState
          sampleRawState).docJsonl,
        ∀ d ∈ r.documents, d.file_name ≠ "bad.jpg" :=
  c6_theorem (fun _ => some ⟨[1, 2]⟩) (fun _ => none)
    "https://re-entanglements.net/x.jpg" 1 0 99 ⟨[1, 2]⟩ sampleRawState
    emptyCleanState "bad.jpg" ⟨[1, 2]⟩ rfl rfl (by decide) (by decide) rfl
theorem natCharsAux_digit {fuel n : Nat} {c : Char}
    (hc : c ∈ natCharsAux fuel n) : ∃ d, d < 10 ∧ c = Nat.digitChar d := by
  induction fuel generalizing n with
  | zero => cases hc
  | succ fuel ih =>
    unfold natCharsAux at hc
    by_cases h0 : n = 0
    · simp [h0] at hc
    · simp only [h0, if_false] at hc
      rcases List.mem_append.mp hc with h | h
      · exact ih h
      · exact ⟨n % 10, Nat.mod_lt n (by norm_num), List.mem_singleton.mp h⟩

theorem digitChar_ne_underscore :
    ∀ d : Nat, d < 10 → Nat.digitChar d ≠ '_' := by decide

theorem digitChar_inj_lt : ∀ d1 : Nat, d1 < 10 → ∀ d2 : Nat, d2 < 10 →
    Nat.digitChar d1 = Nat.digitChar d2 → d1 = d2 := by decide

theorem natChars_ne_underscore {n : Nat} {c : Char} (hc : c ∈ natChars n) :
    c ≠ '_' := by
  unfold natChars at hc
  by_cases h0 : n = 0
  · simp only [h0, if_true, List.mem_singleton] at hc
    subst hc; decide
  · simp only [h0, if_false] at hc
    rcases natCharsAux_digit hc with ⟨d, hd, rfl⟩
    exact digitChar_ne_underscore d hd

theorem natCharsAux_zero (fuel : Nat) : natCharsAux fuel 0 = [] := by
  cases fuel <;> simp [natCharsAux]

theorem natCharsAux_ne_nil {fuel n : Nat} (h1 : 0 < n) (h2 : n ≤ fuel) :
    natCharsAux fuel n ≠ [] := by
  cases fuel with
  | zero => omega
  | succ fuel =>
    have h0 : ¬ n = 0 := by omega
    simp [natCharsAux, h0]

theorem append_singleton_inj {α : Type} {a b : List α} {x y : α}
    (h : a ++ [x] = b ++ [y]) : a = b ∧ x = y := by
  have h2 := congrArg List.reverse h
  simp only [List.reverse_append, List.reverse_singleton,
    List.singleton_append] at h2
  injection h2 with hxy hab
  exact ⟨List.reverse_inj.mp hab, hxy⟩

theorem natCharsAux_inj : ∀ n1 : Nat, ∀ {fuel1 fuel2 n2 : Nat},
    n1 ≤ fuel1 → n2 ≤ fuel2 → 0 < n1 → 0 < n2 →
    natCharsAux fuel1 n1 = natCharsAux fuel2 n2 → n1 = n2 := by
  intro n1
  induction n1 using Nat.strong_induction_on with
  | _ n1 ih =>
    intro fuel1 fuel2 n2 hf1 hf2 h1 h2 heq
    cases fuel1 with
    | zero => omega
    | succ f1 =>
      cases fuel2 with
      | zero => omega
      | succ f2 =>
        have e1 : ¬ n1 = 0 := by omega
        have e2 : ¬ n2 = 0 := by omega
        unfold natCharsAux at heq
        simp only [e1, e2, if_false] at heq
        obtain ⟨htail, hlast⟩ := append_singleton_inj heq
        have hmod : n1 % 10 = n2 % 10 :=
          digitChar_inj_lt _ (Nat.mod_lt _ (by norm_num)) _
            (Nat.mod_lt _ (by norm_num)) hlast
        by_cases hq1 : n1 / 10 = 0
        · by_cases hq2 : n2 / 10 = 0
          · omega
          · exfalso
            rw [hq1, natCharsAux_zero] at htail
            exact natCharsAux_ne_nil (n := n2 / 10) (by omega) (by omega)
              htail.symm
        · by_cases hq2 : n2 / 10 = 0
          · exfalso
            rw [hq2, natCharsAux_zero] at htail
            exact natCharsAux_ne_nil (n := n1 / 10) (by omega) (by omega)
              htail
          · have hq : n1 / 10 = n2 / 10 :=
              ih (n1 / 10) (by omega) (by omega) (by omega) (by omega)
                (by omega) htail
            omega

theorem natChars_inj {n1 n2 : Nat} (h : natChars n1 = natChars n2) :
    n1 = n2 := by
  unfold natChars at h
  by_cases h1 : n1 = 0 <;> by_cases h2 : n2 = 0
  · omega
  · exfalso
    simp only [h1, if_true, h2, if_false] at h
    cases hn : n2 with
    | zero => omega
    | succ m =>
      rw [hn] at h
      unfold natCharsAux at h
      simp only [Nat.succ_ne_zero, if_false] at h
      have h9 : [] ++ ['0'] = natCharsAux m ((m + 1) / 10)
          ++ [Nat.digitChar ((m + 1) % 10)] := by simpa using h
      obtain ⟨htail, hlast⟩ := append_singleton_inj h9
      by_cases hq : (m + 1) / 10 = 0
      · have hm : (m + 1) % 10 = 0 :=
          (digitChar_inj_lt _ (Nat.mod_lt _ (by norm_num)) 0 (by norm_num)
            hlast.symm)
        omega
      · exact natCharsAux_ne_nil (n := (m + 1) / 10) (by omega) (by omega)
          htail.symm
  · exfalso
    simp only [h1, if_false, h2, if_true] at h
    cases hn : n1 with
    | zero => omega
    | succ m =>
      rw [hn] at h
      unfold natCharsAux at h
      simp only [Nat.succ_ne_zero, if_false] at h
      have h9 : natCharsAux m ((m + 1) / 10)
          ++ [Nat.digitChar ((m + 1) % 10)] = [] ++ ['0'] := by simpa using h
      obtain ⟨htail, hlast⟩ := append_singleton_inj h9
      by_cases hq : (m + 1) / 10 = 0
      · have hm : (m + 1) % 10 = 0 :=
          (digitChar_inj_lt _ (Nat.mod_lt _ (by norm_num)) 0 (by norm_num)
            hlast)
        omega
      · exact natCharsAux_ne_nil (n := (m + 1) / 10) (by omega) (by omega)
          htail
  · simp only [h1, h2, if_false] at h
    exact natCharsAux_inj n1 (Nat.le_refl n1) (Nat.le_refl n2) (by omega)
      (by omega) h

theorem splitUnderscore : ∀ (a1 : List Char) {a2 r1 r2 : List Char},
    (∀ c ∈ a1, c ≠ '_') → (∀ c ∈ a2, c ≠ '_') →
    a1 ++ '_' :: r1 = a2 ++ '_' :: r2 → a1 = a2 ∧ r1 = r2 := by
  intro a1
  induction a1 with
  | nil =>
    intro a2 r1 r2 _ h2 heq
    cases a2 with
    | nil => simpa using heq
    | cons y t =>
      exfalso
      simp only [List.nil_append, List.cons_append] at heq
      injection heq with hy _
      exact h2 y (List.mem_cons_self y t) hy.symm
  | cons x s ih =>
    intro a2 r1 r2 h1 h2 heq
    cases a2 with
    | nil =>
      exfalso
      simp only [List.cons_append, List.nil_append] at heq
      injection heq with hx _
      exact h1 x (List.mem_cons_self x s) hx
    | cons y t =>
      simp only [List.cons_append] at heq
      injection heq with hxy htl
      obtain ⟨hst, hr⟩ := ih (fun c hc => h1 c (List.mem_cons_of_mem x hc))
        (fun c hc => h2 c (List.mem_cons_of_mem y hc)) htl
      exact ⟨by rw [hxy, hst], hr⟩

theorem string_data_append (s t : String) :
    (s ++ t).data = s.data ++ t.data := rfl

theorem mkAssetFilename_data (postId idx ts : Nat) (origName : String) :
    (mkAssetFilename postId idx ts origName).data =
      SOURCE_ID.data ++ '_' :: (natChars postId ++ '_' :: (natChars idx
        ++ '_' :: (natChars ts ++ '_' ::
          (sanitize_filename origName).data))) := by
  simp [mkAssetFilename, natStrOf, string_data_append, List.append_assoc]

/-- C9 (amended, for the Re-entanglements scraper): the generated asset
filename determines the post id, candidate index and millisecond
timestamp — so two assets of the same run with different (post id,
index) pairs never collide within a raw directory, and the same asset
downloaded in runs with different millisecond timestamps gets different
filenames. -/
theorem c9_theorem (p1 i1 t1 p2 i2 t2 : Nat) (s1 s2 : String)
    (h : mkAssetFilename p1 i1 t1 s1 = mkAssetFilename p2 i2 t2 s2) :
    p1 = p2 ∧ i1 = i2 ∧ t1 = t2 := by
  have hd := congrArg String.data h
  rw [mkAssetFilename_data, mkAssetFilename_data] at hd
  have h0 : '_' :: (natChars p1 ++ '_' :: (natChars i1 ++ '_' ::
      (natChars t1 ++ '_' :: (sanitize_filename s1).data)))
      = '_' :: (natChars p2 ++ '_' :: (natChars i2 ++ '_' ::
      (natChars t2 ++ '_' :: (sanitize_filename s2).data))) :=
    List.append_cancel_left hd
  injection h0 with _ h0
  obtain ⟨hp, h0⟩ := splitUnderscore _
    (fun _ hc => natChars_ne_underscore hc)
    (fun _ hc => natChars_ne_underscore hc) h0
  obtain ⟨hi, h0⟩ := splitUnderscore _
    (fun _ hc => natChars_ne_underscore hc)
    (fun _ hc => natChars_ne_underscore hc) h0
  obtain ⟨ht, _⟩ := splitUnderscore _
    (fun _ hc => natChars_ne_underscore hc)
    (fun _ hc => natChars_ne_underscore hc) h0
  exact ⟨natChars_inj hp, natChars_inj hi, natChars_inj ht⟩

/-- C9, witness for c9_theorem at equal concrete inputs. -/
theorem c9_witness :
    mkAssetFilename 7 0 99 "a.jpg" = mkAssetFilename 7 0 99 "a.jpg"
    ∧ ((7 : Nat) = 7 ∧ (0 : Nat) = 0 ∧ (99 : Nat) = 99) :=
  ⟨rfl, c9_theorem 7 0 99 7 0 99 "a.jpg" "a.jpg" rfl⟩

/-- C9, counterexample: the MAA scraper (run_maa_cambridge.py:153-154,
cited by the claim) names a downloaded asset `{safe_id}_{idx}.jpg`: for
catalogue id "X" and index 0 the file downloaded from
".../media/photo.jpg" is saved as "X_0.jpg", which contains no source
id, no millisecond timestamp and no sanitized original basename — so
the claimed filename composition does not hold for every downloaded
asset of the repository. -/
theorem c9_counterexample :
    maa_filename "X" 0 = "X_0.jpg"
    ∧ strContains "maa_cambridge" (maa_filename "X" 0) = false
    ∧ strContains "re-entanglements" (maa_filename "X" 0) = false
    ∧ strContains "photo" (maa_filename "X" 0) = false := by
  refine ⟨by decide, by decide, by decide, by decide⟩

theorem pagesJoin_zero {α : Type} (fetch : Nat → Option (List α)) (a : Nat) :
    pagesJoin fetch a 0 = [] := by
  simp [pagesJoin]

theorem pagesJoin_succ_left {α : Type} (fetch : Nat → Option (List α))
    (a d : Nat) :
    pagesJoin fetch a (d + 1) =
      (fetch a).getD [] ++ pagesJoin fetch (a + 1) d := by
  unfold pagesJoin
  rw [List.range_succ_eq_map, List.map_cons, List.flatten_cons, List.map_map]
  have hfun : ((fun j => (fetch (a + j)).getD []) ∘ Nat.succ)
      = (fun j => (fetch (a + 1 + j)).getD []) := by
    funext j
    simp only [Function.comp_apply]
    have hj : a + Nat.succ j = a + 1 + j := by omega
    rw [hj]
  rw [hfun]
  simp

/-- Characterization of the get_all_posts pagination loop: if pages
`page ..< page + d` are non-empty successes and page `page + d` fails or
is empty, the loop returns the accumulator followed by the
concatenation of those pages and stops having fetched page `page + d`. -/
theorem get_all_posts_aux_spec {α : Type} (fetch : Nat → Option (List α)) :
    ∀ (d fuel page : Nat) (acc : List α), d < fuel →
    (∀ j, j < d → ∃ l, fetch (page + j) = some l ∧ l ≠ []) →
    (fetch (page + d) = none ∨ fetch (page + d) = some []) →
    get_all_posts_aux fetch fuel page acc
      = (acc ++ pagesJoin fetch page d, page + d) := by
  intro d
  induction d with
  | zero =>
    intro fuel page acc hfuel hprev hstop
    cases fuel with
    | zero => omega
    | succ f =>
      unfold get_all_posts_aux
      rcases hstop with h | h <;> simp only [Nat.add_zero] at h <;>
        rw [h] <;> simp [pagesJoin_zero]
  | succ d ih =>
    intro fuel page acc hfuel hprev hstop
    cases fuel with
    | zero => omega
    | succ f =>
      obtain ⟨l, hl, hlne⟩ := hprev 0 (by omega)
      simp only [Nat.add_zero] at hl
      unfold get_all_posts_aux
      rw [hl]
      cases l with
      | nil => exact absurd rfl hlne
      | cons x xs =>
        have hrec := ih f (page + 1) (acc ++ (x :: xs)) (by omega)
          (fun j hj => by
            have hpj := hprev (j + 1) (by omega)
            rwa [show page + (j + 1) = page + 1 + j by omega] at hpj)
          (by rwa [show page + (d + 1) = page + 1 + d by omega] at hstop)
        show get_all_posts_aux fetch f (page + 1) (acc ++ x :: xs)
          = (acc ++ pagesJoin fetch page (d + 1), page + (d + 1))
        rw [hrec, pagesJoin_succ_left, hl]
        simp only [Prod.mk.injEq, Option.getD_some, List.append_assoc]
        refine ⟨by simp, by omega⟩

/-- The get_all_posts loop started at page 1. -/
theorem get_all_posts_spec {α : Type} (fetch : Nat → Option (List α))
    (k fuel : Nat) (hk : 1 ≤ k) (hfuel : k ≤ fuel)
    (hprev : ∀ p, 1 ≤ p → p < k → ∃ l, fetch p = some l ∧ l ≠ [])
    (hstop : fetch k = none ∨ fetch k = some []) :
    get_all_posts fetch fuel = (pagesJoin fetch 1 (k - 1), k) := by
  unfold get_all_posts
  have h := get_all_posts_aux_spec fetch (k - 1) fuel 1 [] (by omega)
    (fun j hj => hprev (1 + j) (by omega) (by omega))
    (by rwa [show 1 + (k - 1) = k by omega])
  rw [h, show 1 + (k - 1) = k by omega]
  simp

/-- C4, counterexample: with page 1 succeeding, page 2 failing once and
page 3 non-empty, the harvester stops at page 2 after the single
failure and returns only page 1's posts — no page ever returned an
empty list and no request failed twice, so "stop exactly on an empty
page or after two failures" is not what the code does. -/
theorem c4_counterexample :
    get_all_posts fetchC4 10 = ([7], 2)
    ∧ fetchC4 1 = some [7]
    ∧ fetchC4 2 = none
    ∧ fetchC4 3 = some [8] := by
  refine ⟨by decide, by decide, by decide, by decide⟩

/-- C4 (amended): the harvester requests successive numbered pages and
stops exactly when a page returns an empty list or a request fails ONCE
(there is no retry); on stopping it returns the concatenation of all
pages fetched so far — partial results, never an exception (failures
are already Option-valued). -/
theorem c4_theorem {α : Type} (fetch : Nat → Option (List α))
    (k fuel : Nat) (hk : 1 ≤ k) (hfuel : k ≤ fuel)
    (hprev : ∀ p, 1 ≤ p → p < k → ∃ l, fetch p = some l ∧ l ≠ [])
    (hstop : fetch k = none ∨ fetch k = some []) :
    get_all_posts fetch fuel = (pagesJoin fetch 1 (k - 1), k) :=
  get_all_posts_spec fetch k fuel hk hfuel hprev hstop

/-- C4, witness for c4_theorem: page 1 holds [5], page 2 is empty; the
harvester returns page 1's content and fetches exactly 2 pages. -/
theorem c4_witness :
    get_all_posts fetchC4w 5 = (pagesJoin fetchC4w 1 1, 2) :=
  c4_theorem fetchC4w 2 5 (by omega) (by omega)
    (by
      intro p h1 h2
      have hp : p = 1 := by omega
      subst hp
      exact ⟨[5], rfl, by decide⟩)
    (Or.inr rfl)

theorem take_drop_ne_nil {α : Type} {l : List α} {k P : Nat} (hP : 0 < P)
    (hk : k < l.length) : (l.drop k).take P ≠ [] := by
  apply List.ne_nil_of_length_pos
  rw [List.length_take, List.length_drop]
  omega

theorem ceil_mul_ge (N P : Nat) (hP : 0 < P) :
    N ≤ ((N + P - 1) / P) * P := by
  have h1 := Nat.div_add_mod (N + P - 1) P
  have h2 := Nat.mod_lt (N + P - 1) hP
  have h3 : ((N + P - 1) / P) * P = P * ((N + P - 1) / P) :=
    Nat.mul_comm _ _
  omega

theorem lt_ceil_mul (N P p : Nat) (hP : 0 < P) (hp : 1 ≤ p)
    (hple : p ≤ (N + P - 1) / P) : (p - 1) * P < N := by
  have h1 : p * P ≤ ((N + P - 1) / P) * P := Nat.mul_le_mul_right P hple
  have h2 : ((N + P - 1) / P) * P ≤ N + P - 1 := Nat.div_mul_le_self _ P
  have h3 : (p - 1) * P + P = p * P := by
    cases p with
    | zero => omega
    | succ q => simp [Nat.succ_sub_one, Nat.succ_mul]
  omega

theorem ceil_pos (N P : Nat) (hP : 0 < P) (hN : 0 < N) :
    1 ≤ (N + P - 1) / P := by
  rw [Nat.le_div_iff_mul_le hP]
  omega

theorem chunkFetch_shift {α : Type} (l : List α) (P p : Nat) (hp : 1 ≤ p) :
    chunkFetch l P (p + 1) = chunkFetch (l.drop P) P p := by
  obtain ⟨q, rfl⟩ : ∃ q, p = q + 1 := ⟨p - 1, by omega⟩
  unfold chunkFetch
  congr 1
  rw [List.drop_drop]
  simp only [Nat.add_sub_cancel, Nat.succ_mul]
  rw [Nat.add_comm (q * P) P]

theorem pagesJoin_chunkFetch_shift {α : Type} (l : List α) (P m : Nat) :
    pagesJoin (chunkFetch l P) 2 m = pagesJoin (chunkFetch (l.drop P) P) 1 m := by
  unfold pagesJoin
  have hfun : (fun j => ((chunkFetch l P) (2 + j)).getD ([] : List α))
      = (fun j => ((chunkFetch (l.drop P) P) (1 + j)).getD []) := by
    funext j
    rw [show 2 + j = (1 + j) + 1 by omega, chunkFetch_shift l P (1 + j) (by omega)]
  rw [hfun]

theorem pagesJoin_chunk {α : Type} :
    ∀ (m : Nat) (items : List α) (P : Nat),
    pagesJoin (chunkFetch items P) 1 m = items.take (m * P) := by
  intro m
  induction m with
  | zero => intro items P; simp [pagesJoin_zero]
  | succ m ih =>
    intro items P
    rw [pagesJoin_succ_left, show (1 : Nat) + 1 = 2 from rfl,
      pagesJoin_chunkFetch_shift, ih]
    show (chunkFetch items P 1).getD [] ++ (items.drop P).take (m * P)
      = items.take ((m + 1) * P)
    rw [Nat.succ_mul, Nat.add_comm (m * P) P, List.take_add]
    unfold chunkFetch
    simp

/-- The API harvester over a finite listing served in pages of size P:
it returns the whole listing and fetches exactly ⌈N/P⌉ + 1 pages. -/
theorem get_all_posts_chunk {α : Type} (items : List α) (P fuel : Nat)
    (hP : 0 < P) (hfuel : (items.length + P - 1) / P + 1 ≤ fuel) :
    get_all_posts (chunkFetch items P) fuel
      = (items, (items.length + P - 1) / P + 1) := by
  have hprev : ∀ p, 1 ≤ p → p < (items.length + P - 1) / P + 1 →
      ∃ l, chunkFetch items P p = some l ∧ l ≠ [] := by
    intro p hp1 hpk
    refine ⟨_, rfl, ?_⟩
    exact take_drop_ne_nil hP (lt_ceil_mul items.length P p hP hp1 (by omega))
  have hstop : chunkFetch items P ((items.length + P - 1) / P + 1)
      = some [] := by
    unfold chunkFetch
    rw [Nat.add_sub_cancel,
      List.drop_eq_nil_of_le (ceil_mul_ge items.length P hP)]
    simp
  have h := get_all_posts_spec (chunkFetch items P)
    ((items.length + P - 1) / P + 1) fuel
    (Nat.succ_le_succ (Nat.zero_le _)) hfuel hprev (Or.inr hstop)
  rw [h, Nat.add_sub_cancel, pagesJoin_chunk,
    List.take_of_length_le (ceil_mul_ge items.length P hP)]

/-- The MAA link-harvesting loop over a finite listing of N ≥ 1 unique
links served in pages of size P: from page k (with the links of pages
1..k-1 accumulated and k page loads done) it finishes with the whole
listing after ⌈N/P⌉ + 1 page loads. -/
theorem scrape_maa_aux_chunk {α : Type} [DecidableEq α] (items : List α)
    (P : Nat) (hP : 0 < P) (hnd : items.Nodup) (hne : items ≠ []) :
    ∀ fuel k, 1 ≤ k → k ≤ (items.length + P - 1) / P + 1 →
      (items.length + P - 1) / P + 2 - k ≤ fuel →
      scrape_maa_links_aux (fun p => (items.drop ((p - 1) * P)).take P)
        (fun _ => true) fuel k (items.take ((k - 1) * P)) k
      = (items, (items.length + P - 1) / P + 1) := by
  intro fuel
  induction fuel with
  | zero =>
    intro k hk1 hk2 hfuel
    omega
  | succ f ih =>
    intro k hk1 hk2 hfuel
    have hsplit : items.take ((k - 1) * P) ++ items.drop ((k - 1) * P)
        = items := List.take_append_drop _ _
    have hnd2 : (items.take ((k - 1) * P) ++ items.drop ((k - 1) * P)).Nodup := by
      rw [hsplit]; exact hnd
    have hdisj := (List.nodup_append.mp hnd2).2.2
    have hdropnd := (List.nodup_append.mp hnd2).2.1
    have hchunknd : ((items.drop ((k - 1) * P)).take P).Nodup :=
      hdropnd.sublist (List.take_sublist _ _)
    have hded : ((items.drop ((k - 1) * P)).take P).dedup
        = (items.drop ((k - 1) * P)).take P := List.dedup_eq_self.mpr hchunknd
    have hfilt : ((items.drop ((k - 1) * P)).take P).filter
        (fun l => decide (l ∉ items.take ((k - 1) * P)))
        = (items.drop ((k - 1) * P)).take P := by
      apply List.filter_eq_self.mpr
      intro a ha
      have hamem : a ∈ items.drop ((k - 1) * P) :=
        (List.take_sublist _ _).mem ha
      exact decide_eq_true (fun hin => hdisj hin hamem)
    unfold scrape_maa_links_aux
    simp only [hded, hfilt, Bool.not_true]
    by_cases hkm : k ≤ (items.length + P - 1) / P
    · have hlt : (k - 1) * P < items.length :=
        lt_ceil_mul items.length P k hP hk1 hkm
      have hchne : (items.drop ((k - 1) * P)).take P ≠ [] :=
        take_drop_ne_nil hP hlt
      have hemp : ((items.drop ((k - 1) * P)).take P).isEmpty = false := by
        cases hc : (items.drop ((k - 1) * P)).take P with
        | nil => exact absurd hc hchne
        | cons y ys => rfl
      rw [hemp]
      simp only [Bool.false_and, if_false]
      have hlinks : items.take ((k - 1) * P) ++ (items.drop ((k - 1) * P)).take P
          = items.take ((k + 1 - 1) * P) := by
        obtain ⟨q, rfl⟩ : ∃ q, k = q + 1 := ⟨k - 1, by omega⟩
        simp only [Nat.add_sub_cancel, Nat.succ_mul]
        exact (List.take_add items _ _).symm
      rw [hlinks]
      exact ih (k + 1) (by omega) (by omega) (by omega)
    · have hk : k = (items.length + P - 1) / P + 1 := by omega
      have hdropnil : items.drop ((k - 1) * P) = [] := by
        apply List.drop_eq_nil_of_le
        rw [hk, Nat.add_sub_cancel]
        exact ceil_mul_ge items.length P hP
      rw [hdropnil]
      have hk2' : decide (1 < k) = true := by
        have hm1 : 1 ≤ (items.length + P - 1) / P :=
          ceil_pos items.length P hP (List.length_pos.mpr hne)
        exact decide_eq_true (by omega)
      simp only [List.take_nil, List.isEmpty_nil, hk2', Bool.and_self,
        if_true, List.append_nil]
      have htake : items.take ((k - 1) * P) = items := by
        apply List.take_of_length_le
        rw [hk, Nat.add_sub_cancel]
        exact ceil_mul_ge items.length P hP
      rw [htake, hk]

theorem scrape_maa_chunk {α : Type} [DecidableEq α] (items : List α)
    (P fuel : Nat) (hP : 0 < P) (hnd : items.Nodup) (hne : items ≠ [])
    (hfuel : (items.length + P - 1) / P + 1 ≤ fuel) :
    scrape_maa_links (fun p => (items.drop ((p - 1) * P)).take P)
      (fun _ => true) fuel = (items, (items.length + P - 1) / P + 1) := by
  unfold scrape_maa_links
  have h := scrape_maa_aux_chunk items P hP hnd hne fuel 1
    (Nat.le_refl 1) (Nat.succ_le_succ (Nat.zero_le _)) (by omega)
  simpa using h

/-- C5 (amended): over a listing of N ≥ 1 unique items served in pages
of fixed size P with no failures, both harvesters return exactly the
listing and perform exactly ⌈N/P⌉ + 1 page fetches, the final fetch
observing the empty terminal page; on an EMPTY listing (N = 0) the API
harvester performs ⌈0/P⌉ + 1 = 1 fetch as claimed, but the browser-based
harvester performs 2 page loads, because its stop condition
(`not unique_new and page_num > 1`) cannot fire on page 1. -/
theorem c5_theorem {α : Type} [DecidableEq α] (items : List α)
    (P fuel : Nat) (hP : 0 < P) (hnd : items.Nodup) (hne : items ≠ [])
    (hfuel : (items.length + P - 1) / P + 2 ≤ fuel) :
    get_all_posts (chunkFetch items P) fuel
      = (items, (items.length + P - 1) / P + 1)
    ∧ scrape_maa_links (fun p => (items.drop ((p - 1) * P)).take P)
        (fun _ => true) fuel = (items, (items.length + P - 1) / P + 1)
    ∧ get_all_posts (chunkFetch ([] : List α) P) fuel = ([], 1) := by
  have hone : 1 ≤ fuel := Nat.le_trans (Nat.le_add_left 1 _) hfuel
  have hfa : (items.length + P - 1) / P + 1 ≤ fuel :=
    Nat.le_trans (Nat.succ_le_succ (Nat.le_succ _)) hfuel
  have hdiv : ((List.length ([] : List α)) + P - 1) / P = 0 := by
    apply Nat.div_eq_of_lt
    simp only [List.length_nil, Nat.zero_add]
    omega
  refine ⟨get_all_posts_chunk items P fuel hP hfa,
    scrape_maa_chunk items P fuel hP hnd hne hfa, ?_⟩
  have h := get_all_posts_chunk ([] : List α) P fuel hP
    (by rw [hdiv]; exact hone)
  rw [h, hdiv]

/-- C5, witness for c5_theorem: three items in pages of two — both
harvesters return the three items in ⌈3/2⌉ + 1 = 3 page fetches. -/
theorem c5_witness :
    get_all_posts (chunkFetch [10, 20, 30] 2) 9 = ([10, 20, 30], 3)
    ∧ scrape_maa_links (fun p => (([10, 20, 30].drop ((p - 1) * 2)).take 2))
        (fun _ => true) 9 = ([10, 20, 30], 3)
    ∧ get_all_posts (chunkFetch ([] : List Nat) 2) 9 = ([], 1) := by
  have h := c5_theorem [10, 20, 30] 2 9 (by decide) (by decide) (by decide)
    (by decide)
  simpa using h

/-- C5, counterexample: on an empty listing served in pages of size 5,
the browser-based harvester performs 2 page loads where the claim's
formula ⌈0/5⌉ + 1 demands exactly 1. -/
theorem c5_counterexample :
    scrape_maa_links (fun p => ((([] : List Nat).drop ((p - 1) * 5)).take 5))
      (fun _ => true) 10 = ([], 2)
    ∧ (([] : List Nat).length + 5 - 1) / 5 + 1 = 1 := by
  refine ⟨by decide, by decide⟩
